import Mathlib

/-!
Verification of the json-benchmark harness (`src/main.rs`).

The repository's binary drives four benchmark row kinds through macros:
`bench_file!` (serde_json, rustc_serialize), `bench_file_simd_json!`,
`bench_file_msgpack!`, all composed by `bench!` sections inside `main`.
This file embeds those macro bodies as Lean functions over an abstract codec
and a per-trial monotonic-clock oracle.  The `timer` module, the `throughput`
calculator and `num_trials` belong to the library crate, which is not part of
the sources; they are modelled from the specification as marked below.

Byte strings are lists of naturals; wall-clock durations are naturals
(nanoseconds).  A Rust `unwrap` panic is the `.error` case of an
`Except Panic _` value carrying the `src/main.rs` line of the failing
`unwrap` and the rendered codec error.
-/

set_option autoImplicit false

namespace JsonBench

universe u v

/-- Byte strings, as they appear in `Vec<u8>` fixture payloads. -/
abbrev Bytes := List Nat

/-- A process abort raised by a failed `unwrap`: the `src/main.rs` line of the
`unwrap` call and the rendering of the error value it was called on. -/
structure Panic where
  line : Nat
  err : String
deriving DecidableEq

/-- Modelled from the spec: the trial loop of `timer::bench` (§4.1); the
`timer` module is not under `src/`.  `op i` is the outcome of trial `i`'s
closure invocation (a failed `unwrap` inside the closure is `.error`), and
`clock i` is the elapsed duration the monotonic clock reports for trial `i`.
Returns the completed trials, each holding its result value paired with its
elapsed reading, in execution order, together with the error of the trial
that aborted the run, if any; trials after a failed one are not executed. -/
def runTrials {α : Type u} (op : Nat → Except String α) (clock : Nat → Nat) :
    Nat → Nat → List (α × Nat) × Option String
  | _, 0 => ([], none)
  | i, k + 1 =>
    match op i with
    | .error e => ([], some e)
    | .ok a =>
      let rest := runTrials op clock (i + 1) k
      ((a, clock i) :: rest.1, rest.2)

/-- Minimum of a list of durations; `0` for the empty list, which the harness
never produces since it requires `trial_count >= 1`. -/
def minOfDurations : List Nat → Nat
  | [] => 0
  | d :: ds => ds.foldl Nat.min d

/-- Modelled from the spec: `timer::bench(trial_count, operation)` (§4.1)
executes the operation once per trial and returns the minimum elapsed
duration over all trials, aborting at the first failing trial. -/
def bench {α : Type u} (n : Nat) (op : Nat → Except String α)
    (clock : Nat → Nat) : Except String Nat :=
  let r := runTrials op clock 0 n
  match r.2 with
  | some e => .error e
  | none => .ok (minOfDurations (r.1.map Prod.snd))

/-- Modelled from the spec: `timer::bench_with_buf(trial_count, size, op)`
(§4.1).  One scratch buffer is reused across trials and cleared outside the
timed window; `op i` is the byte string trial `i` writes into it.  Returns
the minimum elapsed duration together with the buffer's final contents. -/
def bench_with_buf (n : Nat) (sizeHint : Nat)
    (op : Nat → Except String Bytes) (clock : Nat → Nat) :
    Except String (Nat × Bytes) :=
  let _ := sizeHint
  let r := runTrials op clock 0 n
  match r.2 with
  | some e => .error e
  | none => .ok (minOfDurations (r.1.map Prod.snd), (r.1.map Prod.fst).getLastD [])

/-- Minimum elapsed duration over trials `0, …, n-1` as reported by `clock`. -/
def minElapsed (clock : Nat → Nat) (n : Nat) : Nat :=
  minOfDurations ((List.range n).map clock)

/-- Modelled from the spec: the manual `timer::Benchmark` interface (§4.1):
the caller starts and stops a trial timer explicitly and the harness folds
each elapsed duration into the running minimum. -/
structure Benchmark where
  best : Option Nat
deriving DecidableEq

/-- `timer::Benchmark::new()`: no trial recorded yet. -/
def Benchmark.new : Benchmark := ⟨none⟩

/-- One explicit `start`/`stop` pair: fold the trial's elapsed duration into
the running minimum. -/
def Benchmark.addTrial (b : Benchmark) (d : Nat) : Benchmark :=
  ⟨some (match b.best with | none => d | some m => Nat.min m d)⟩

/-- `timer::Benchmark::min_elapsed()`: the minimum duration recorded so far. -/
def Benchmark.min_elapsed (b : Benchmark) : Nat := b.best.getD 0

/-- A displayed throughput figure: a rate in MB/s or the sentinel shown for a
zero duration. -/
inductive Rate where
  | mbps (value : Nat)
  | sentinel
deriving DecidableEq

/-- Modelled from the spec: the throughput calculator (§4.2) is not under
`src/`.  It converts an elapsed duration in nanoseconds and a byte count into
decimal MB/s, and reports the sentinel instead of dividing when the duration
is zero. -/
def throughput (dur : Nat) (byte_count : Nat) : Rate :=
  if dur = 0 then .sentinel else .mbps (byte_count * 1000 / dur)

/-- Modelled from the spec: `num_trials()` reads the environment-level
trial-count override (§6); the environment variable's parsed value is the
model's input. -/
def num_trials (envNumTrials : Option Nat) : Option Nat := envNumTrials

/-- One printed results column: either a measured cell recording the two
arguments the code passes to `throughput` — the minimum duration and the byte
count — or the blank column `print!("          ")` emitted when the
corresponding feature is not compiled in. -/
inductive Cell where
  | value (dur : Nat) (byte_count : Nat)
  | blank
deriving DecidableEq

/-- The process's observable output, in order: the fixture path printed (and
flushed) at the start of a row, a results column, the row-terminating
newline, a `bench!` section header carrying the library name, or the
terminal panic message of an aborted process. -/
inductive Event where
  | path (p : String)
  | cell (c : Cell)
  | newline
  | header (name : String)
  | panicked (p : Panic)
deriving DecidableEq

/-- The columns printed within a list of output events. -/
def cellsOf (evs : List Event) : List Cell :=
  evs.filterMap (fun e => match e with | .cell c => some c | _ => none)

/-- The per-library arguments of the `bench_file!` macro: fallible parse and
stringify functions for the DOM type and the typed-struct type.  The macro's
`$stringify_dom` argument is a polymorphic function that the expansion
applies both at the DOM type (lines 83 and 86) and at the struct type
(line 114); `stringify_dom_struct` is its instantiation at the struct type.
In both `bench_file!` call sites of `main` the same function is passed for
`$stringify_dom` and `$stringify_struct`. -/
structure JsonCodec (Dom : Type u) (Struc : Type v) where
  parse_dom : Bytes → Except String Dom
  stringify_dom_dom : Dom → Except String Bytes
  parse_struct : Bytes → Except String Struc
  stringify_struct : Struc → Except String Bytes
  stringify_dom_struct : Struc → Except String Bytes

/-- Which of the four operation cargo features the binary was compiled with. -/
structure Features where
  parse_dom : Bool
  stringify_dom : Bool
  parse_struct : Bool
  stringify_struct : Bool
deriving DecidableEq

/-- Per-operation clock oracles: the elapsed duration the monotonic clock
reports for trial `i` of each timed operation of a row. -/
structure Costs where
  pd : Nat → Nat
  sd : Nat → Nat
  ps : Nat → Nat
  ss : Nat → Nat

/-- `bench_file!` lines 66–76, the parse-DOM column: when the feature is
compiled in, `timer::bench` runs `$parse_dom(&contents).unwrap()` (line 69)
once per trial and the cell passes `contents.len()` to `throughput`
(line 72); otherwise the blank column is printed (line 76). -/
def parseDomBranch {Dom : Type u} {Struc : Type v} (enabled : Bool)
    (codec : JsonCodec Dom Struc) (contents : Bytes) (clock : Nat → Nat)
    (n : Nat) : Except Panic (List Event) :=
  if enabled then
    match bench n (fun _ => codec.parse_dom contents) clock with
    | .error e => .error ⟨69, e⟩
    | .ok dur => .ok [.cell (.value dur contents.length)]
  else
    .ok [.cell .blank]

/-- `bench_file!` lines 78–91, the stringify-DOM column: parse once outside
the timer (line 81, `unwrap`), time `$stringify_dom` writing into the scratch
buffer (lines 82–84, `unwrap` at line 83), then serialize once more
(lines 85–86, `unwrap` at 86) and pass that output's length to `throughput`
(line 87); blank column otherwise (line 91). -/
def stringifyDomBranch {Dom : Type u} {Struc : Type v} (enabled : Bool)
    (codec : JsonCodec Dom Struc) (contents : Bytes) (clock : Nat → Nat)
    (n : Nat) : Except Panic (List Event) :=
  if enabled then
    match codec.parse_dom contents with
    | .error e => .error ⟨81, e⟩
    | .ok dom =>
      match bench_with_buf n contents.length
          (fun _ => codec.stringify_dom_dom dom) clock with
      | .error e => .error ⟨83, e⟩
      | .ok r =>
        match codec.stringify_dom_dom dom with
        | .error e => .error ⟨86, e⟩
        | .ok serialized => .ok [.cell (.value r.1 serialized.length)]
  else
    .ok [.cell .blank]

/-- `bench_file!` lines 94–104, the parse-struct column: like parse-DOM, with
the `unwrap` at line 97 and `contents.len()` at line 100; blank column
otherwise (line 104). -/
def parseStructBranch {Dom : Type u} {Struc : Type v} (enabled : Bool)
    (codec : JsonCodec Dom Struc) (contents : Bytes) (clock : Nat → Nat)
    (n : Nat) : Except Panic (List Event) :=
  if enabled then
    match bench n (fun _ => codec.parse_struct contents) clock with
    | .error e => .error ⟨97, e⟩
    | .ok dur => .ok [.cell (.value dur contents.length)]
  else
    .ok [.cell .blank]

/-- `bench_file!` lines 106–117, the stringify-struct column.  Two quirks of
the source are preserved: there is no `#[cfg(not(feature =
"stringify-struct"))]` fallback, so when the feature is not compiled in this
column prints nothing at all; and the extra serialization whose length is
passed to `throughput` calls `$stringify_dom` on the parsed struct
(line 114), not `$stringify_struct`. -/
def stringifyStructBranch {Dom : Type u} {Struc : Type v} (enabled : Bool)
    (codec : JsonCodec Dom Struc) (contents : Bytes) (clock : Nat → Nat)
    (n : Nat) : Except Panic (List Event) :=
  if enabled then
    match codec.parse_struct contents with
    | .error e => .error ⟨109, e⟩
    | .ok parsed =>
      match bench_with_buf n contents.length
          (fun _ => codec.stringify_struct parsed) clock with
      | .error e => .error ⟨111, e⟩
      | .ok r =>
        match codec.stringify_dom_struct parsed with
        | .error e => .error ⟨114, e⟩
        | .ok serialized => .ok [.cell (.value r.1 serialized.length)]
  else
    .ok []

/-- Sequence the column branches of one row: a failed `unwrap` in a branch
panics the process, so later branches print nothing and the panic message is
the final output; a completed row ends with the `println!()` newline. -/
def seqBranches : List (Except Panic (List Event)) → List Event
  | [] => [.newline]
  | b :: bs =>
    match b with
    | .error p => [.panicked p]
    | .ok evs => evs ++ seqBranches bs

/-- The `bench_file!` macro body (lines 43–122) for one fixture, given an
explicit trial count: print the fixture path (lines 57–58, flushed before any
trial runs), then the four columns in order. -/
def benchFileCore {Dom : Type u} {Struc : Type v} (n : Nat) (fts : Features)
    (codec : JsonCodec Dom Struc) (path : String) (contents : Bytes)
    (costs : Costs) : List Event :=
  .path path ::
    seqBranches
      [parseDomBranch fts.parse_dom codec contents costs.pd n,
       stringifyDomBranch fts.stringify_dom codec contents costs.sd n,
       parseStructBranch fts.parse_struct codec contents costs.ps n,
       stringifyStructBranch fts.stringify_struct codec contents costs.ss n]

/-- `bench_file!` including line 55: `num_trials().unwrap_or(256)`. -/
def benchFile {Dom : Type u} {Struc : Type v} (envNumTrials : Option Nat)
    (fts : Features) (codec : JsonCodec Dom Struc) (path : String)
    (contents : Bytes) (costs : Costs) : List Event :=
  benchFileCore ((num_trials envNumTrials).getD 256) fts codec path contents costs

/-- State of the `bench_file_simd_json!` manual trial loop.  `contents` is
the shared fixture vector, `data` the private copy that the destructive
in-place parser consumes, `bench` the running minimum.  `inputs` records the
bytes held by `data` at each `benchmark.start()` and `wall` the total
wall-clock time spent, including the untimed `clone_from_slice` restore;
both are observations the Rust code does not store but whose values are
determined by its execution. -/
structure SimdState where
  contents : Bytes
  data : Bytes
  bench : Benchmark
  inputs : List Bytes
  wall : Nat
deriving DecidableEq

/-- The loop state right after `let mut data = contents.clone()` (line 149 /
line 183). -/
def SimdState.init (contents : Bytes) : SimdState :=
  { contents := contents, data := contents, bench := Benchmark.new,
    inputs := [], wall := 0 }

/-- One iteration of the simd-json manual loop (lines 150–155 and 184–188):
restore the private copy from the pristine fixture
(`data.as_mut_slice().clone_from_slice(contents.as_slice())`), start the
trial timer, run the destructive parse on the copy — it returns a value and
leaves the copy in a mutated state, and its `unwrap` panics at `line` on
failure — then stop the timer.  Only the parse is inside the timed window,
so the duration folded into the minimum is `parseCost i`, while the restore
contributes only to the untimed wall-clock total. -/
def simdStep {V : Type u} (line : Nat)
    (parse : Bytes → Except String (V × Bytes))
    (restoreCost parseCost : Nat → Nat) (i : Nat) (s : SimdState) :
    Except Panic SimdState :=
  let restored := s.contents
  match parse restored with
  | .error e => .error ⟨line, e⟩
  | .ok vm =>
    .ok { contents := s.contents
          data := vm.2
          bench := s.bench.addTrial (parseCost i)
          inputs := s.inputs ++ [restored]
          wall := s.wall + restoreCost i + parseCost i }

/-- The `for _ in 0..num_trials` loop over `simdStep`, trial indices
`i, …, i+k-1`. -/
def simdLoopAux {V : Type u} (line : Nat)
    (parse : Bytes → Except String (V × Bytes))
    (restoreCost parseCost : Nat → Nat) :
    Nat → Nat → SimdState → Except Panic SimdState
  | _, 0, s => .ok s
  | i, k + 1, s =>
    match simdStep line parse restoreCost parseCost i s with
    | .error p => .error p
    | .ok s2 => simdLoopAux line parse restoreCost parseCost (i + 1) k s2

/-- A full manual-timer trial loop of `bench_file_simd_json!`: clone the
fixture into a private copy, then `n` iterations of
restore / start / parse / stop, beginning at trial index `0`. -/
def simdRun {V : Type u} (line : Nat)
    (parse : Bytes → Except String (V × Bytes)) (contents : Bytes) (n : Nat)
    (restoreCost parseCost : Nat → Nat) : Except Panic SimdState :=
  simdLoopAux line parse restoreCost parseCost 0 n (SimdState.init contents)

/-- Clock oracles for a `bench_file_simd_json!` row: restore and parse costs
of the two manual loops, and the stringify-DOM closure cost. -/
structure SimdCosts where
  restorePd : Nat → Nat
  pd : Nat → Nat
  sd : Nat → Nat
  restorePs : Nat → Nat
  ps : Nat → Nat

/-- The `bench_file_simd_json!` macro body (lines 129–197): the parse-DOM
column uses the manual loop over a private copy with the restore outside the
timed window (`unwrap` at line 153) and passes `contents.len()` to
`throughput` (line 157); the stringify-DOM column parses a fresh copy once
(`unwrap` at line 167) and times `simd_json::Writable::write`, which writes
into an in-memory vector and hence cannot fail, so it is modelled as total;
the parse-struct column is another manual loop (`unwrap` at line 187).  The
parse-struct column has no blank fallback when its feature is off, and there
is no stringify-struct column at all. -/
def benchFileSimdJsonCore {V : Type u} {S : Type v} (n : Nat) (fts : Features)
    (parseDom : Bytes → Except String (V × Bytes))
    (parseStruct : Bytes → Except String (S × Bytes))
    (write : V → Bytes) (path : String) (contents : Bytes)
    (costs : SimdCosts) : List Event :=
  .path path ::
    seqBranches
      [(if fts.parse_dom then
          match simdRun 153 parseDom contents n costs.restorePd costs.pd with
          | .error p => .error p
          | .ok s => .ok [.cell (.value s.bench.min_elapsed contents.length)]
        else .ok [.cell .blank]),
       (if fts.stringify_dom then
          match parseDom contents with
          | .error e => .error ⟨167, e⟩
          | .ok vm =>
            match bench_with_buf n contents.length
                (fun _ => .ok (write vm.1)) costs.sd with
            | .error e => .error ⟨169, e⟩
            | .ok r => .ok [.cell (.value r.1 (write vm.1).length)]
        else .ok [.cell .blank]),
       (if fts.parse_struct then
          match simdRun 187 parseStruct contents n costs.restorePs costs.ps with
          | .error p => .error p
          | .ok s => .ok [.cell (.value s.bench.min_elapsed contents.length)]
        else .ok [])]

/-- `bench_file_simd_json!` including line 134:
`num_trials().unwrap_or(256)`. -/
def benchFileSimdJson {V : Type u} {S : Type v} (envNumTrials : Option Nat)
    (fts : Features) (parseDom : Bytes → Except String (V × Bytes))
    (parseStruct : Bytes → Except String (S × Bytes)) (write : V → Bytes)
    (path : String) (contents : Bytes) (costs : SimdCosts) : List Event :=
  benchFileSimdJsonCore ((num_trials envNumTrials).getD 256) fts parseDom
    parseStruct write path contents costs

/-- The manual `Benchmark` loop of `bench_file_msgpack!` (lines 217–223 and
246 in spirit): each trial times one run of the same fallible decode of the
fixed payload, its `unwrap` panicking at `line` on failure. -/
def manualLoop {V : Type u} (line : Nat) (op : Except String V)
    (clock : Nat → Nat) : Nat → Nat → Benchmark → Except Panic Benchmark
  | _, 0, b => .ok b
  | i, k + 1, b =>
    match op with
    | .error e => .error ⟨line, e⟩
    | .ok _ => manualLoop line op clock (i + 1) k (b.addTrial (clock i))

/-- The `bench_file_msgpack!` macro body (lines 200–273).  The benchmarked
payload is built at lines 210–213: the JSON fixture is parsed into the typed
struct by serde_json (`unwrap` at line 211) and re-encoded to MessagePack by
rmp_serde (`unwrap` at line 212); that encoding is the `contents` used by
every column.  `rmpv::encode::write_value` writes into an in-memory vector
and cannot fail, so it is modelled as total; in particular the `Result` it
returns inside the timing closure at line 236, which the code does not
`unwrap`, carries no error.  The stringify-struct column again has no blank
fallback when its feature is off. -/
def benchFileMsgpackCore {V : Type u} {S : Type v} (n : Nat) (fts : Features)
    (jsonParseStruct : Bytes → Except String S)
    (rmpEncode : S → Except String Bytes)
    (readValue : Bytes → Except String V) (writeValue : V → Bytes)
    (rmpFromSlice : Bytes → Except String S)
    (rmpSerWrite : S → Except String Bytes) (path : String) (fixture : Bytes)
    (costs : Costs) : List Event :=
  .path path ::
    (match jsonParseStruct fixture with
     | .error e => [.panicked ⟨211, e⟩]
     | .ok s0 =>
       match rmpEncode s0 with
       | .error e => [.panicked ⟨212, e⟩]
       | .ok contents =>
         seqBranches
           [(if fts.parse_dom then
               match manualLoop 221 (readValue contents) costs.pd 0 n
                   Benchmark.new with
               | .error p => .error p
               | .ok b => .ok [.cell (.value b.min_elapsed contents.length)]
             else .ok [.cell .blank]),
            (if fts.stringify_dom then
               match readValue contents with
               | .error e => .error ⟨234, e⟩
               | .ok dom =>
                 match bench_with_buf n contents.length
                     (fun _ => .ok (writeValue dom)) costs.sd with
                 | .error e => .error ⟨236, e⟩
                 | .ok r => .ok [.cell (.value r.1 (writeValue dom).length)]
             else .ok [.cell .blank]),
            (if fts.parse_struct then
               match bench n (fun _ => rmpFromSlice contents) costs.ps with
               | .error e => .error ⟨249, e⟩
               | .ok dur => .ok [.cell (.value dur contents.length)]
             else .ok [.cell .blank]),
            (if fts.stringify_struct then
               match rmpFromSlice contents with
               | .error e => .error ⟨261, e⟩
               | .ok parsed =>
                 match bench_with_buf n contents.length
                     (fun _ => rmpSerWrite parsed) costs.ss with
                 | .error e => .error ⟨263, e⟩
                 | .ok r =>
                   match rmpSerWrite parsed with
                   | .error e => .error ⟨266, e⟩
                   | .ok serialized =>
                     .ok [.cell (.value r.1 serialized.length)]
             else .ok [])])

/-- `bench_file_msgpack!` including line 205:
`num_trials().unwrap_or(256)`. -/
def benchFileMsgpack {V : Type u} {S : Type v} (envNumTrials : Option Nat)
    (fts : Features) (jsonParseStruct : Bytes → Except String S)
    (rmpEncode : S → Except String Bytes)
    (readValue : Bytes → Except String V) (writeValue : V → Bytes)
    (rmpFromSlice : Bytes → Except String S)
    (rmpSerWrite : S → Except String Bytes) (path : String) (fixture : Bytes)
    (costs : Costs) : List Event :=
  benchFileMsgpackCore ((num_trials envNumTrials).getD 256) fts
    jsonParseStruct rmpEncode readValue writeValue rmpFromSlice rmpSerWrite
    path fixture costs

/-- A UTF-8 continuation byte, `0x80–0xBF`. -/
def isCont (b : Nat) : Bool := 0x80 ≤ b && b ≤ 0xBF

/-- Validity of a byte string as UTF-8, exactly the condition under which
`core::str::from_utf8` succeeds (RFC 3629): ASCII bytes, two-byte sequences
`C2–DF`, three-byte sequences `E0/E1–EC/ED/EE–EF` with their restricted
first-continuation ranges excluding overlong forms and surrogates, and
four-byte sequences `F0/F1–F3/F4` bounded by U+10FFFF. -/
def validUtf8 : List Nat → Bool
  | [] => true
  | b :: rest =>
    if b ≤ 0x7F then validUtf8 rest
    else if 0xC2 ≤ b && b ≤ 0xDF then
      match rest with
      | c1 :: r => isCont c1 && validUtf8 r
      | _ => false
    else if b = 0xE0 then
      match rest with
      | c1 :: c2 :: r => (0xA0 ≤ c1 && c1 ≤ 0xBF) && isCont c2 && validUtf8 r
      | _ => false
    else if (0xE1 ≤ b && b ≤ 0xEC) || b = 0xEE || b = 0xEF then
      match rest with
      | c1 :: c2 :: r => isCont c1 && isCont c2 && validUtf8 r
      | _ => false
    else if b = 0xED then
      match rest with
      | c1 :: c2 :: r => (0x80 ≤ c1 && c1 ≤ 0x9F) && isCont c2 && validUtf8 r
      | _ => false
    else if b = 0xF0 then
      match rest with
      | c1 :: c2 :: c3 :: r =>
        (0x90 ≤ c1 && c1 ≤ 0xBF) && isCont c2 && isCont c3 && validUtf8 r
      | _ => false
    else if 0xF1 ≤ b && b ≤ 0xF3 then
      match rest with
      | c1 :: c2 :: c3 :: r =>
        isCont c1 && isCont c2 && isCont c3 && validUtf8 r
      | _ => false
    else if b = 0xF4 then
      match rest with
      | c1 :: c2 :: c3 :: r =>
        (0x80 ≤ c1 && c1 ≤ 0x8F) && isCont c2 && isCont c3 && validUtf8 r
      | _ => false
    else false

/-- The adapter `serde_json_parse_dom` (lines 317–321):
`str::from_utf8(bytes).unwrap()` followed by `serde_json::from_str`.
`from_str` stands for the library parser acting on the decoded string, given
here on the underlying bytes.  The outer `Except Panic` is the process-abort
channel of the `unwrap` at line 319; the inner `Except String` is the
adapter's declared `serde_json::Result` channel. -/
def serde_json_parse_dom {Dom : Type u} (from_str : Bytes → Except String Dom)
    (bytes : Bytes) : Except Panic (Except String Dom) :=
  if validUtf8 bytes then .ok (from_str bytes) else .error ⟨319, "Utf8Error"⟩

/-- The adapter `serde_json_parse_struct` (lines 327–334), with the
`from_utf8` `unwrap` at line 332. -/
def serde_json_parse_struct {T : Type u} (from_str : Bytes → Except String T)
    (bytes : Bytes) : Except Panic (Except String T) :=
  if validUtf8 bytes then .ok (from_str bytes) else .error ⟨332, "Utf8Error"⟩

/-- The adapter `rustc_serialize_parse_struct` (lines 350–357), with the
`from_utf8` `unwrap` at line 355. -/
def rustc_serialize_parse_struct {T : Type u}
    (decode : Bytes → Except String T) (bytes : Bytes) :
    Except Panic (Except String T) :=
  if validUtf8 bytes then .ok (decode bytes) else .error ⟨355, "Utf8Error"⟩

/-- Whether a row's output ends in a process abort. -/
def rowAborted (r : List Event) : Bool :=
  match r.getLast? with
  | some (.panicked _) => true
  | _ => false

/-- Run the fixture rows of one `bench!` section in order; a panicking row
ends the process, so its output is final and later rows never run. -/
def runRows : List (List Event) → List Event × Bool
  | [] => ([], false)
  | r :: rs =>
    if rowAborted r then (r, true)
    else
      let rest := runRows rs
      (r ++ rest.1, rest.2)

/-- Run the `bench!` sections of `main` (lines 278–310) in order: each prints
its header naming the library (line 18), then its fixture rows; an abort in a
row ends the whole process. -/
def runSections : List (String × List (List Event)) → List Event × Bool
  | [] => ([], false)
  | s :: ss =>
    let rows := runRows s.2
    if rows.2 then (.header s.1 :: rows.1, true)
    else
      let rest := runSections ss
      (.header s.1 :: rows.1 ++ rest.1, rest.2)

/-- The library names printed in an output trace, in order. -/
def headersOf (tr : List Event) : List String :=
  tr.filterMap (fun e => match e with | .header h => some h | _ => none)

/-- The fixture paths printed in an output trace, in order. -/
def pathsOf (tr : List Event) : List String :=
  tr.filterMap (fun e => match e with | .path p => some p | _ => none)

/-- The library name of the section whose output a reader of the trace saw
last. -/
def lastHeader (tr : List Event) : Option String := (headersOf tr).getLast?

/-- The fixture path a reader of the trace saw last. -/
def lastPath (tr : List Event) : Option String := (pathsOf tr).getLast?

/-- The panic message terminating the trace, if the process aborted. -/
def finalPanic (tr : List Event) : Option Panic :=
  match tr.getLast? with
  | some (.panicked p) => some p
  | _ => none

/-- The process exit status: Rust panics terminate the process with the
non-zero status 101; a completed run exits with 0. -/
def exitCode (run : List Event × Bool) : Nat := if run.2 then 101 else 0

/-- A row's events other than its leading path: columns or a terminal panic,
never another path or a header. -/
def tailEventsOk (rest : List Event) : Bool :=
  rest.all fun e =>
    match e with
    | .path _ => false
    | .header _ => false
    | _ => true

/-- No section header inside a row's own output. -/
def headerFree (r : List Event) : Bool :=
  r.all fun e => match e with | .header _ => false | _ => true

/-- A concrete always-succeeding codec, used to instantiate theorems on
closed inputs.  Its `stringify_dom_struct` and `stringify_struct` are the
same function, as in both `bench_file!` call sites of `main`. -/
def exCodec : JsonCodec Nat Nat :=
  { parse_dom := fun _ => .ok 0
    stringify_dom_dom := fun _ => .ok [48, 49]
    parse_struct := fun _ => .ok 0
    stringify_struct := fun _ => .ok [48]
    stringify_dom_struct := fun _ => .ok [48] }

/-- A concrete codec whose DOM parser always fails with error `"x"`. -/
def exFailCodec : JsonCodec Nat Nat :=
  { parse_dom := fun _ => .error "x"
    stringify_dom_dom := fun _ => .ok []
    parse_struct := fun _ => .ok 0
    stringify_struct := fun _ => .ok []
    stringify_dom_struct := fun _ => .ok [] }

/-- Concrete unit clock oracles. -/
def exCosts : Costs := ⟨fun _ => 1, fun _ => 1, fun _ => 1, fun _ => 1⟩

/-- Concrete unit clock oracles for the simd-json row. -/
def exSimdCosts : SimdCosts :=
  ⟨fun _ => 1, fun _ => 1, fun _ => 1, fun _ => 1, fun _ => 1⟩

/-- A concrete trial operation succeeding on trial 0 and failing on
trial 1. -/
def exOp : Nat → Except String Nat :=
  fun i => if i = 0 then .ok 0 else .error "second trial failed"

/-- A concrete destructive parse that always succeeds, consuming its
buffer. -/
def exParse : Bytes → Except String (Nat × Bytes) := fun _ => .ok (0, [])

/-- A concrete destructive parse that always fails. -/
def exParseFail : Bytes → Except String (Nat × Bytes) :=
  fun _ => .error "bad"

/-- A concrete completed row, used as the run prefix of witnesses. -/
def exRowOk : List Event :=
  [.path "data/canada.json", .cell (.value 1 1), .newline]

/-- A concrete row aborting in its parse-DOM column. -/
def exRowBad : List Event :=
  [.path "data/twitter.json", .panicked ⟨69, "x"⟩]

/-- The row of the C4 counterexample: all features compiled in except
stringify-struct, a fixture of one byte, one trial. -/
def exC4Row : List Event :=
  benchFileCore 1 ⟨true, true, true, false⟩ exCodec "data/canada.json" [49]
    exCosts

/-!  ### Lemmas about the modelled timer  -/

theorem runTrials_ok {α : Type u} {op : Nat → Except String α} {f : Nat → α}
    (clock : Nat → Nat) (hop : ∀ j, op j = Except.ok (f j)) :
    ∀ (k i : Nat),
      runTrials op clock i k =
        ((List.range' i k).map (fun j => (f j, clock j)), none) := by
  intro k
  induction k with
  | zero => intro i; simp [runTrials]
  | succ k ih =>
    intro i
    simp [runTrials, hop i, ih (i + 1), List.range'_succ]

theorem bench_ok {α : Type u} {op : Nat → Except String α} {f : Nat → α}
    (n : Nat) (clock : Nat → Nat) (hop : ∀ j, op j = Except.ok (f j)) :
    bench n op clock = .ok (minElapsed clock n) := by
  simp [bench, runTrials_ok clock hop n 0, minElapsed, List.range_eq_range',
    List.map_map, Function.comp_def]

theorem getLastD_map_const {α : Type u} {β : Type v} :
    ∀ (l : List α) (b d : β), l ≠ [] → (l.map (fun _ => b)).getLastD d = b
  | [], _, _, h => absurd rfl h
  | [_], _, _, _ => rfl
  | _ :: a :: l, b, _, _ => getLastD_map_const (a :: l) b b (by simp)

theorem bench_with_buf_ok {op : Nat → Except String Bytes} {bs : Bytes}
    (n : Nat) (hn : 1 ≤ n) (sizeHint : Nat) (clock : Nat → Nat)
    (hop : ∀ j, op j = Except.ok bs) :
    bench_with_buf n sizeHint op clock = .ok (minElapsed clock n, bs) := by
  have hne : n ≠ 0 := by omega
  simp [bench_with_buf, runTrials_ok clock hop n 0, minElapsed,
    List.range_eq_range', List.map_map, Function.comp_def,
    List.getLast?_replicate, hne]

theorem bench_with_buf_ok' {op : Nat → Except String Bytes} {g : Nat → Bytes}
    (n : Nat) (sizeHint : Nat) (clock : Nat → Nat)
    (hop : ∀ j, op j = Except.ok (g j)) :
    bench_with_buf n sizeHint op clock =
      .ok (minElapsed clock n, ((List.range' 0 n).map g).getLastD []) := by
  simp [bench_with_buf, runTrials_ok clock hop n 0, minElapsed,
    List.range_eq_range', List.map_map, Function.comp_def]

theorem runTrials_fail {α : Type u} (op : Nat → Except String α)
    (clock : Nat → Nat) (e : String) :
    ∀ (k n i : Nat), k < n →
      (∀ j, j < k → ∃ a, op (i + j) = Except.ok a) →
      op (i + k) = Except.error e →
      (runTrials op clock i n).2 = some e ∧
        (runTrials op clock i n).1.map Prod.snd =
          (List.range' i k).map clock := by
  intro k
  induction k with
  | zero =>
    intro n i hk _ hf
    obtain ⟨n', rfl⟩ : ∃ n', n = n' + 1 := ⟨n - 1, by omega⟩
    simp only [Nat.add_zero] at hf
    simp [runTrials, hf]
  | succ k ih =>
    intro n i hk hok hf
    obtain ⟨n', rfl⟩ : ∃ n', n = n' + 1 := ⟨n - 1, by omega⟩
    obtain ⟨a, ha⟩ := hok 0 (by omega)
    simp only [Nat.add_zero] at ha
    have hok' : ∀ j, j < k → ∃ b, op (i + 1 + j) = Except.ok b := by
      intro j hj
      obtain ⟨b, hb⟩ := hok (j + 1) (by omega)
      exact ⟨b, by rw [show i + 1 + j = i + (j + 1) by omega]; exact hb⟩
    have hf' : op (i + 1 + k) = Except.error e := by
      rw [show i + 1 + k = i + (k + 1) by omega]; exact hf
    have ihr := ih n' (i + 1) (by omega) hok' hf'
    simp [runTrials, ha, List.range'_succ, ihr.1, ihr.2]

theorem bench_fail {α : Type u} (op : Nat → Except String α)
    (clock : Nat → Nat) (e : String) (k n : Nat) (hk : k < n)
    (hok : ∀ j, j < k → ∃ a, op j = Except.ok a)
    (hf : op k = Except.error e) : bench n op clock = .error e := by
  have h := runTrials_fail op clock e k n 0 hk
    (by intro j hj; simpa using hok j hj) (by simpa using hf)
  simp [bench, h.1]

/-!  ### Lemmas about minima of durations  -/

theorem minOfDurations_append (l : List Nat) (d : Nat) (hl : l ≠ []) :
    minOfDurations (l ++ [d]) = Nat.min (minOfDurations l) d := by
  cases l with
  | nil => exact absurd rfl hl
  | cons x xs => simp [minOfDurations, List.foldl_append]

theorem minElapsed_succ_le (clock : Nat → Nat) (n : Nat) (hn : 1 ≤ n) :
    minElapsed clock (n + 1) ≤ minElapsed clock n := by
  have hne : (List.range n).map clock ≠ [] := by
    simp [List.range_eq_nil]; omega
  rw [minElapsed, List.range_succ, List.map_append]
  simp only [List.map_cons, List.map_nil]
  rw [minOfDurations_append _ _ hne]
  exact Nat.min_le_left _ _

theorem minElapsed_mono (clock : Nat → Nat) (m n : Nat) (h1 : 1 ≤ m)
    (h2 : m ≤ n) : minElapsed clock n ≤ minElapsed clock m := by
  induction n, h2 using Nat.le_induction with
  | base => exact le_refl _
  | succ n hmn ih =>
    exact le_trans (minElapsed_succ_le clock n (le_trans h1 hmn)) ih

/-!  ### Lemmas about the manual `Benchmark` interface  -/

theorem foldl_addTrial_best (ds : List Nat) :
    ∀ a : Nat,
      (ds.foldl Benchmark.addTrial ⟨some a⟩).best =
        some (ds.foldl Nat.min a) := by
  induction ds with
  | nil => intro a; rfl
  | cons d ds ih => intro a; simpa [Benchmark.addTrial] using ih (Nat.min a d)

theorem min_elapsed_foldl (ds : List Nat) (hd : ds ≠ []) :
    (ds.foldl Benchmark.addTrial Benchmark.new).min_elapsed =
      minOfDurations ds := by
  cases ds with
  | nil => exact absurd rfl hd
  | cons d ds =>
    have h0 : Benchmark.addTrial Benchmark.new d = ⟨some d⟩ := rfl
    simp [h0, Benchmark.min_elapsed, foldl_addTrial_best, minOfDurations]

theorem manualLoop_ok {V : Type u} (line : Nat) (v : V) (clock : Nat → Nat) :
    ∀ (k i : Nat) (b : Benchmark),
      manualLoop line (.ok v) clock i k b =
        .ok (((List.range' i k).map clock).foldl Benchmark.addTrial b) := by
  intro k
  induction k with
  | zero => intro i b; simp [manualLoop]
  | succ k ih => intro i b; simp [manualLoop, ih (i + 1), List.range'_succ]

/-!  ### Lemmas about the simd-json manual trial loop  -/

theorem simdLoopAux_ok {V : Type u} (line : Nat)
    (parse : Bytes → Except String (V × Bytes)) (rc pc : Nat → Nat)
    (c : Bytes) (v : V) (m : Bytes) (hp : parse c = .ok (v, m)) :
    ∀ (k i : Nat) (s : SimdState), s.contents = c →
      simdLoopAux line parse rc pc i k s =
        .ok { contents := c
              data := if k = 0 then s.data else m
              bench :=
                ((List.range' i k).map pc).foldl Benchmark.addTrial s.bench
              inputs := s.inputs ++ List.replicate k c
              wall :=
                s.wall +
                  ((List.range' i k).map (fun j => rc j + pc j)).sum } := by
  intro k
  induction k with
  | zero =>
    intro i s hs
    simp [simdLoopAux, ← hs]
  | succ k ih =>
    intro i s hs
    have hstep : simdStep line parse rc pc i s =
        .ok { contents := c, data := m, bench := s.bench.addTrial (pc i),
              inputs := s.inputs ++ [c], wall := s.wall + rc i + pc i } := by
      simp [simdStep, hs, hp]
    have hih := ih (i + 1)
      { contents := c, data := m, bench := s.bench.addTrial (pc i),
        inputs := s.inputs ++ [c], wall := s.wall + rc i + pc i } rfl
    simp only [simdLoopAux, hstep, hih, Except.ok.injEq, SimdState.mk.injEq,
      true_and]
    refine ⟨by simp, by simp [List.range'_succ], by simp [List.replicate_succ],
      by simp [List.range'_succ]; omega⟩

theorem simdRun_ok {V : Type u} (line : Nat)
    (parse : Bytes → Except String (V × Bytes)) (c : Bytes) (v : V)
    (m : Bytes) (hp : parse c = .ok (v, m)) (n : Nat) (rc pc : Nat → Nat) :
    simdRun line parse c n rc pc =
      .ok { contents := c
            data := if n = 0 then c else m
            bench :=
              ((List.range' 0 n).map pc).foldl Benchmark.addTrial
                Benchmark.new
            inputs := List.replicate n c
            wall := ((List.range' 0 n).map (fun j => rc j + pc j)).sum } := by
  have h := simdLoopAux_ok line parse rc pc c v m hp n 0 (SimdState.init c) rfl
  simpa [simdRun, SimdState.init] using h

theorem simdRun_fail {V : Type u} (line : Nat)
    (parse : Bytes → Except String (V × Bytes)) (c : Bytes) (e : String)
    (hp : parse c = .error e) (n : Nat) (hn : 1 ≤ n) (rc pc : Nat → Nat) :
    simdRun line parse c n rc pc = .error ⟨line, e⟩ := by
  obtain ⟨k, rfl⟩ : ∃ k, n = k + 1 := ⟨n - 1, by omega⟩
  simp [simdRun, simdLoopAux, simdStep, SimdState.init, hp]

theorem simdRun_min_elapsed {V : Type u} (line : Nat)
    (parse : Bytes → Except String (V × Bytes)) (c : Bytes) (v : V)
    (m : Bytes) (hp : parse c = .ok (v, m)) (n : Nat) (hn : 1 ≤ n)
    (rc pc : Nat → Nat) :
    ∃ s, simdRun line parse c n rc pc = .ok s ∧
      s.bench.min_elapsed = minElapsed pc n := by
  refine ⟨_, simdRun_ok line parse c v m hp n rc pc, ?_⟩
  have hne : (List.range' 0 n).map pc ≠ [] := by simp; omega
  simp [min_elapsed_foldl _ hne, minElapsed, List.range_eq_range']

/-!  ### Lemmas about the run-level composition of `main`  -/

theorem runRows_ok (rs : List (List Event))
    (h : ∀ r ∈ rs, rowAborted r = false) : runRows rs = (rs.flatten, false) := by
  induction rs with
  | nil => rfl
  | cons r rs ih =>
    simp [runRows, h r (by simp),
      ih (fun r2 hr => h r2 (by simp [hr]))]

theorem runRows_abort (done : List (List Event)) (rj : List Event)
    (rest : List (List Event)) (h : ∀ r ∈ done, rowAborted r = false)
    (hrj : rowAborted rj = true) :
    runRows (done ++ rj :: rest) = (done.flatten ++ rj, true) := by
  induction done with
  | nil => simp [runRows, hrj]
  | cons r done ih =>
    simp [runRows, h r (by simp),
      ih (fun r2 hr => h r2 (by simp [hr]))]

theorem runSections_abort (pre : List (String × List (List Event)))
    (L : String) (done : List (List Event)) (rj : List Event)
    (rest : List (List Event)) (more : List (String × List (List Event)))
    (hpre : ∀ s ∈ pre, ∀ r ∈ s.2, rowAborted r = false)
    (hdone : ∀ r ∈ done, rowAborted r = false)
    (hrj : rowAborted rj = true) :
    runSections (pre ++ (L, done ++ rj :: rest) :: more) =
      ((pre.map (fun s => Event.header s.1 :: s.2.flatten)).flatten ++
        Event.header L :: (done.flatten ++ rj), true) := by
  induction pre with
  | nil =>
    simp [runSections, runRows_abort done rj rest hdone hrj]
  | cons s pre ih =>
    have h1 : runRows s.2 = (s.2.flatten, false) :=
      runRows_ok s.2 (hpre s (by simp))
    simp [runSections, h1, ih (fun s2 hs => hpre s2 (by simp [hs]))]

/-!  ### Lemmas about reading a trace back  -/

theorem headersOf_append (l1 l2 : List Event) :
    headersOf (l1 ++ l2) = headersOf l1 ++ headersOf l2 := by
  simp [headersOf]

theorem pathsOf_append (l1 l2 : List Event) :
    pathsOf (l1 ++ l2) = pathsOf l1 ++ pathsOf l2 := by
  simp [pathsOf]

theorem headersOf_headerFree (r : List Event) (h : headerFree r = true) :
    headersOf r = [] := by
  rw [headersOf, List.filterMap_eq_nil_iff]
  intro e he
  have h2 := List.all_eq_true.mp h e he
  cases e <;> simp_all

theorem headersOf_tailEventsOk (r : List Event) (h : tailEventsOk r = true) :
    headersOf r = [] := by
  rw [headersOf, List.filterMap_eq_nil_iff]
  intro e he
  have h2 := List.all_eq_true.mp h e he
  cases e <;> simp_all

theorem pathsOf_tailEventsOk (r : List Event) (h : tailEventsOk r = true) :
    pathsOf r = [] := by
  rw [pathsOf, List.filterMap_eq_nil_iff]
  intro e he
  have h2 := List.all_eq_true.mp h e he
  cases e <;> simp_all

theorem headersOf_join_nil (rows : List (List Event))
    (h : ∀ r ∈ rows, headerFree r = true) : headersOf rows.flatten = [] := by
  induction rows with
  | nil => rfl
  | cons r rows ih =>
    rw [List.flatten_cons, headersOf_append,
      headersOf_headerFree r (h r (by simp)),
      ih (fun r2 hr => h r2 (by simp [hr]))]
    rfl

theorem headersOf_preTrace (pre : List (String × List (List Event)))
    (h : ∀ s ∈ pre, ∀ r ∈ s.2, headerFree r = true) :
    headersOf ((pre.map (fun s => Event.header s.1 :: s.2.flatten)).flatten) =
      pre.map Prod.fst := by
  induction pre with
  | nil => rfl
  | cons s pre ih =>
    rw [List.map_cons, List.flatten_cons, headersOf_append]
    rw [show headersOf (Event.header s.1 :: s.2.flatten) =
        s.1 :: headersOf s.2.flatten from rfl]
    rw [headersOf_join_nil s.2 (h s (by simp)),
      ih (fun s2 hs => h s2 (by simp [hs]))]
    rfl

/-!  ### Lemmas about the columns of a `bench_file!` row  -/

theorem parseDomBranch_ok {Dom : Type u} {Struc : Type v}
    (codec : JsonCodec Dom Struc) (contents : Bytes) (clock : Nat → Nat)
    (n : Nat) {dom : Dom} (h : codec.parse_dom contents = .ok dom) :
    parseDomBranch true codec contents clock n =
      .ok [.cell (.value (minElapsed clock n) contents.length)] := by
  simp [parseDomBranch, bench_ok n clock (fun _ => h)]

theorem parseDomBranch_fail {Dom : Type u} {Struc : Type v}
    (codec : JsonCodec Dom Struc) (contents : Bytes) (clock : Nat → Nat)
    (n : Nat) (hn : 1 ≤ n) {e : String}
    (h : codec.parse_dom contents = .error e) :
    parseDomBranch true codec contents clock n = .error ⟨69, e⟩ := by
  have hb : bench n (fun _ => codec.parse_dom contents) clock = .error e :=
    bench_fail _ clock e 0 n (by omega) (fun j hj => absurd hj (by omega)) h
  simp [parseDomBranch, hb]

theorem stringifyDomBranch_ok {Dom : Type u} {Struc : Type v}
    (codec : JsonCodec Dom Struc) (contents : Bytes) (clock : Nat → Nat)
    (n : Nat) (hn : 1 ≤ n) {dom : Dom} {outD : Bytes}
    (h1 : codec.parse_dom contents = .ok dom)
    (h2 : codec.stringify_dom_dom dom = .ok outD) :
    stringifyDomBranch true codec contents clock n =
      .ok [.cell (.value (minElapsed clock n) outD.length)] := by
  simp [stringifyDomBranch, h1, h2,
    @bench_with_buf_ok (fun _ => Except.ok outD) outD n hn contents.length
      clock (fun _ => rfl)]

theorem parseStructBranch_ok {Dom : Type u} {Struc : Type v}
    (codec : JsonCodec Dom Struc) (contents : Bytes) (clock : Nat → Nat)
    (n : Nat) {st : Struc} (h : codec.parse_struct contents = .ok st) :
    parseStructBranch true codec contents clock n =
      .ok [.cell (.value (minElapsed clock n) contents.length)] := by
  simp [parseStructBranch, bench_ok n clock (fun _ => h)]

theorem stringifyStructBranch_ok {Dom : Type u} {Struc : Type v}
    (codec : JsonCodec Dom Struc) (contents : Bytes) (clock : Nat → Nat)
    (n : Nat) (hn : 1 ≤ n) {st : Struc} {outS : Bytes}
    (h1 : codec.parse_struct contents = .ok st)
    (h2 : codec.stringify_struct st = .ok outS)
    (h3 : codec.stringify_dom_struct st = .ok outS) :
    stringifyStructBranch true codec contents clock n =
      .ok [.cell (.value (minElapsed clock n) outS.length)] := by
  simp [stringifyStructBranch, h1, h2, h3,
    @bench_with_buf_ok (fun _ => Except.ok outS) outS n hn contents.length
      clock (fun _ => rfl)]

/-- From an aborted run's output alone, a reader recovers which library, which
fixture and which failing `unwrap` produced the abort: the failing library is
the last header printed, the failing fixture the last path printed, and the
panic message — the trace's final event — carries the failing operation's
source line. -/
theorem trace_identifies (pre : List (String × List (List Event)))
    (L : String) (done : List (List Event)) (rj : List Event) (q : String)
    (pa : Panic) (rjTail : List Event)
    (hpre2 : ∀ s ∈ pre, ∀ r ∈ s.2, headerFree r = true)
    (hdone2 : ∀ r ∈ done, headerFree r = true)
    (hrj : rj = Event.path q :: rjTail) (htail : tailEventsOk rjTail = true)
    (hlast : rj.getLast? = some (.panicked pa)) :
    finalPanic ((pre.map (fun s => Event.header s.1 :: s.2.flatten)).flatten ++
        Event.header L :: (done.flatten ++ rj)) = some pa ∧
    lastHeader ((pre.map (fun s => Event.header s.1 :: s.2.flatten)).flatten ++
        Event.header L :: (done.flatten ++ rj)) = some L ∧
    lastPath ((pre.map (fun s => Event.header s.1 :: s.2.flatten)).flatten ++
        Event.header L :: (done.flatten ++ rj)) = some q := by
  subst hrj
  refine ⟨?_, ?_, ?_⟩
  · have hne : Event.path q :: rjTail ≠ [] := by simp
    rw [show (pre.map (fun s => Event.header s.1 :: s.2.flatten)).flatten ++
        Event.header L :: (done.flatten ++ (Event.path q :: rjTail)) =
        ((pre.map (fun s => Event.header s.1 :: s.2.flatten)).flatten ++
          Event.header L :: done.flatten) ++ (Event.path q :: rjTail) from
      by simp]
    rw [finalPanic, List.getLast?_append_of_ne_nil _ hne, hlast]
  · have hhead : headersOf
        ((pre.map (fun s => Event.header s.1 :: s.2.flatten)).flatten ++
          Event.header L :: (done.flatten ++ (Event.path q :: rjTail))) =
        pre.map Prod.fst ++ [L] := by
      rw [headersOf_append, headersOf_preTrace pre hpre2]
      rw [show headersOf
          (Event.header L :: (done.flatten ++ (Event.path q :: rjTail))) =
          L :: headersOf (done.flatten ++ (Event.path q :: rjTail)) from rfl]
      rw [headersOf_append, headersOf_join_nil done hdone2]
      rw [show headersOf (Event.path q :: rjTail) = headersOf rjTail from rfl]
      rw [headersOf_tailEventsOk rjTail htail]
      rfl
    rw [lastHeader, hhead, List.getLast?_concat]
  · have hpath : pathsOf
        ((pre.map (fun s => Event.header s.1 :: s.2.flatten)).flatten ++
          Event.header L :: (done.flatten ++ (Event.path q :: rjTail))) =
        (pathsOf
          ((pre.map (fun s => Event.header s.1 :: s.2.flatten)).flatten) ++
          pathsOf done.flatten) ++ [q] := by
      rw [pathsOf_append]
      rw [show pathsOf
          (Event.header L :: (done.flatten ++ (Event.path q :: rjTail))) =
          pathsOf (done.flatten ++ (Event.path q :: rjTail)) from rfl]
      rw [pathsOf_append]
      rw [show pathsOf (Event.path q :: rjTail) = q :: pathsOf rjTail from
        rfl]
      rw [pathsOf_tailEventsOk rjTail htail, List.append_assoc]
    rw [lastPath, hpath, List.getLast?_concat]

/-!  ### The claims  -/

/-- Claim C1: in a `bench_file!` row, the byte count passed to `throughput`
for each stringify column is the length of the serialized output produced by
running the stringify function once on the parsed value (lines 85–87 and
113–115), while each parse column passes the input payload's length
(lines 72 and 100); the two operations therefore use different denominators
whenever input and re-serialization differ in size.  The hypothesis `heq`
reflects that both `bench_file!` call sites in `main` pass the same function
for `$stringify_dom` and `$stringify_struct`, so the line-114 serialization
yields exactly the benchmarked struct stringifier's output. -/
theorem c1_stringify_throughput_uses_serialized_len {Dom : Type u}
    {Struc : Type v} (n : Nat) (hn : 1 ≤ n) (codec : JsonCodec Dom Struc)
    (path : String) (contents : Bytes) (costs : Costs) (dom : Dom)
    (st : Struc) (outD outS : Bytes)
    (hpd : codec.parse_dom contents = .ok dom)
    (hsd : codec.stringify_dom_dom dom = .ok outD)
    (hps : codec.parse_struct contents = .ok st)
    (hss : codec.stringify_struct st = .ok outS)
    (heq : codec.stringify_dom_struct = codec.stringify_struct) :
    benchFileCore n ⟨true, true, true, true⟩ codec path contents costs =
      [.path path,
       .cell (.value (minElapsed costs.pd n) contents.length),
       .cell (.value (minElapsed costs.sd n) outD.length),
       .cell (.value (minElapsed costs.ps n) contents.length),
       .cell (.value (minElapsed costs.ss n) outS.length),
       .newline] := by
  have h3 : codec.stringify_dom_struct st = .ok outS := by rw [heq]; exact hss
  simp [benchFileCore, seqBranches,
    parseDomBranch_ok codec contents costs.pd n hpd,
    stringifyDomBranch_ok codec contents costs.sd n hn hpd hsd,
    parseStructBranch_ok codec contents costs.ps n hps,
    stringifyStructBranch_ok codec contents costs.ss n hn hps hss h3]

/-- Witness for C1 at a concrete codec, fixture and trial count. -/
theorem c1_witness :
    benchFileCore 1 ⟨true, true, true, true⟩ exCodec "data/canada.json" [49]
        exCosts =
      [.path "data/canada.json", .cell (.value 1 1), .cell (.value 1 2),
       .cell (.value 1 1), .cell (.value 1 1), .newline] :=
  c1_stringify_throughput_uses_serialized_len 1 (by decide) exCodec
    "data/canada.json" [49] exCosts 0 0 [48, 49] [48] rfl rfl rfl rfl rfl

/-- Claim C2: a failing codec operation aborts the benchmark immediately.
First, in the closure-based `timer::bench` path a trial whose `unwrap` fails
propagates the error, only the trials before it were executed, and their
recorded durations are genuine clock readings — no sentinel duration is
recorded for the failed trial.  Second, in the manual simd-json loop a
failing parse panics at its `unwrap` line before recording anything.  Third,
a `bench_file!` row whose parse-DOM operation fails prints its path and then
only the line-69 panic, aborting the remaining columns.  Fourth, the process
exits with the non-zero panic status and its output identifies the failure:
the last header printed names the failing library, the last path the failing
fixture, and the terminal panic message carries the failing `unwrap`'s
source line, which determines the operation. -/
theorem c2_failure_aborts_and_identifies {α : Type u} {V : Type u}
    {Dom : Type u} {Struc : Type v}
    (n k : Nat) (hk : k < n) (op : Nat → Except String α) (e : String)
    (clock : Nat → Nat) (hok : ∀ j, j < k → ∃ a, op j = Except.ok a)
    (hfail : op k = Except.error e)
    (line : Nat) (parse : Bytes → Except String (V × Bytes)) (c : Bytes)
    (e2 : String) (hp : parse c = .error e2) (n2 : Nat) (hn2 : 1 ≤ n2)
    (rc pc : Nat → Nat)
    (n3 : Nat) (hn3 : 1 ≤ n3) (fts : Features) (hfd : fts.parse_dom = true)
    (codec : JsonCodec Dom Struc) (path : String) (contents : Bytes)
    (costs : Costs) (e3 : String)
    (hcd : codec.parse_dom contents = .error e3)
    (pre : List (String × List (List Event))) (L : String)
    (done : List (List Event)) (rj : List Event)
    (rest : List (List Event)) (more : List (String × List (List Event)))
    (q : String) (pa : Panic) (rjTail : List Event)
    (hpre1 : ∀ s ∈ pre, ∀ r ∈ s.2, rowAborted r = false)
    (hpre2 : ∀ s ∈ pre, ∀ r ∈ s.2, headerFree r = true)
    (hdone1 : ∀ r ∈ done, rowAborted r = false)
    (hdone2 : ∀ r ∈ done, headerFree r = true)
    (hrj : rj = Event.path q :: rjTail) (htail : tailEventsOk rjTail = true)
    (hlast : rj.getLast? = some (.panicked pa)) :
    bench n op clock = .error e ∧
    (runTrials op clock 0 n).1.length = k ∧
    (runTrials op clock 0 n).1.map Prod.snd = (List.range k).map clock ∧
    simdRun line parse c n2 rc pc = .error ⟨line, e2⟩ ∧
    benchFileCore n3 fts codec path contents costs =
      [.path path, .panicked ⟨69, e3⟩] ∧
    (runSections (pre ++ (L, done ++ rj :: rest) :: more)).2 = true ∧
    exitCode (runSections (pre ++ (L, done ++ rj :: rest) :: more)) ≠ 0 ∧
    finalPanic (runSections (pre ++ (L, done ++ rj :: rest) :: more)).1 =
      some pa ∧
    lastHeader (runSections (pre ++ (L, done ++ rj :: rest) :: more)).1 =
      some L ∧
    lastPath (runSections (pre ++ (L, done ++ rj :: rest) :: more)).1 =
      some q := by
  have hrt := runTrials_fail op clock e k n 0 hk
    (by intro j hj; simpa using hok j hj) (by simpa using hfail)
  have habort : rowAborted rj = true := by simp [rowAborted, hlast]
  have hrun := runSections_abort pre L done rj rest more hpre1 hdone1 habort
  have hid := trace_identifies pre L done rj q pa rjTail hpre2 hdone2 hrj
    htail hlast
  have hbr : parseDomBranch true codec contents costs.pd n3 =
      .error ⟨69, e3⟩ :=
    parseDomBranch_fail codec contents costs.pd n3 hn3 hcd
  refine ⟨?_, ?_, ?_, ?_, ?_, ?_, ?_, ?_, ?_, ?_⟩
  · simp [bench, hrt.1]
  · have h2 := congrArg List.length hrt.2
    simpa using h2
  · rw [hrt.2, List.range_eq_range']
  · exact simdRun_fail line parse c e2 hp n2 hn2 rc pc
  · simp [benchFileCore, hfd, hbr, seqBranches]
  · rw [hrun]
  · simp [exitCode, hrun]
  · rw [hrun]; exact hid.1
  · rw [hrun]; exact hid.2.1
  · rw [hrun]; exact hid.2.2

/-- Witness for C2: a run of two sections in which serde_json completes its
canada row and rustc_serialize aborts on its twitter row. -/
theorem c2_witness :
    bench 2 exOp (fun i => i + 3) = .error "second trial failed" ∧
    (runTrials exOp (fun i => i + 3) 0 2).1.length = 1 ∧
    (runTrials exOp (fun i => i + 3) 0 2).1.map Prod.snd =
      (List.range 1).map (fun i => i + 3) ∧
    simdRun 153 exParseFail [49] 1 (fun _ => 1) (fun _ => 1) =
      .error ⟨153, "bad"⟩ ∧
    benchFileCore 1 ⟨true, true, true, true⟩ exFailCodec
        "data/twitter.json" [49] exCosts =
      [.path "data/twitter.json", .panicked ⟨69, "x"⟩] ∧
    (runSections [("serde_json", [exRowOk]),
        ("rustc_serialize", [exRowBad])]).2 = true ∧
    exitCode (runSections [("serde_json", [exRowOk]),
        ("rustc_serialize", [exRowBad])]) ≠ 0 ∧
    finalPanic (runSections [("serde_json", [exRowOk]),
        ("rustc_serialize", [exRowBad])]).1 = some ⟨69, "x"⟩ ∧
    lastHeader (runSections [("serde_json", [exRowOk]),
        ("rustc_serialize", [exRowBad])]).1 = some "rustc_serialize" ∧
    lastPath (runSections [("serde_json", [exRowOk]),
        ("rustc_serialize", [exRowBad])]).1 = some "data/twitter.json" :=
  c2_failure_aborts_and_identifies 2 1 (by decide) exOp
    "second trial failed" (fun i => i + 3)
    (fun j hj => by
      have h0 : j = 0 := Nat.lt_one_iff.mp hj
      subst h0
      exact ⟨0, rfl⟩)
    rfl 153 exParseFail [49] "bad" rfl 1 (by decide) (fun _ => 1)
    (fun _ => 1) 1 (by decide) ⟨true, true, true, true⟩ rfl exFailCodec
    "data/twitter.json" [49] exCosts "x" rfl
    [("serde_json", [exRowOk])] "rustc_serialize" [] exRowBad [] []
    "data/twitter.json" ⟨69, "x"⟩ [.panicked ⟨69, "x"⟩]
    (by decide) (by decide) (by simp) (by simp) rfl (by decide) (by decide)

/-- Claim C3: the shared fixture payload is never mutated: the simd-json
manual loop keeps the pristine `contents` unchanged while only its private
copy is consumed; each trial begins with the copy restored byte-equal to the
fixture before the trial timer starts; and the recorded minimum covers only
the parse cost: the loop's recorded outcome is identical for any restore
cost, because the `clone_from_slice` restore lies outside the timed
window. -/
theorem c3_fixture_immutable_restore_untimed {V : Type u} (line : Nat)
    (parse : Bytes → Except String (V × Bytes)) (c : Bytes) (v : V)
    (m : Bytes) (hp : parse c = .ok (v, m)) (n : Nat) (hn : 1 ≤ n)
    (rc rc2 pc : Nat → Nat) :
    ∃ s, simdRun line parse c n rc pc = .ok s ∧ s.contents = c ∧
      s.inputs = List.replicate n c ∧
      s.bench.min_elapsed = minElapsed pc n ∧
      ∃ s2, simdRun line parse c n rc2 pc = .ok s2 ∧
        s2.contents = s.contents ∧ s2.data = s.data ∧ s2.bench = s.bench ∧
        s2.inputs = s.inputs := by
  refine ⟨_, simdRun_ok line parse c v m hp n rc pc, rfl, rfl, ?_, ?_⟩
  · have hne : (List.range' 0 n).map pc ≠ [] := by simp; omega
    simp [min_elapsed_foldl _ hne, minElapsed, List.range_eq_range']
  · exact ⟨_, simdRun_ok line parse c v m hp n rc2 pc, rfl, rfl, rfl, rfl⟩

/-- Witness for C3: two trials over a one-byte fixture, restore costs 5 and
7 yielding identical recorded results. -/
theorem c3_witness :
    ∃ s, simdRun 153 exParse [49] 2 (fun _ => 5) (fun _ => 1) = .ok s ∧
      s.contents = [49] ∧ s.inputs = List.replicate 2 [49] ∧
      s.bench.min_elapsed = minElapsed (fun _ => 1) 2 ∧
      ∃ s2, simdRun 153 exParse [49] 2 (fun _ => 7) (fun _ => 1) = .ok s2 ∧
        s2.contents = s.contents ∧ s2.data = s.data ∧ s2.bench = s.bench ∧
        s2.inputs = s.inputs :=
  c3_fixture_immutable_restore_untimed 153 exParse [49] 0 [] rfl 2
    (by decide) (fun _ => 5) (fun _ => 7) (fun _ => 1)

/-- Counterexample to C4 as stated: with every feature compiled in except
stringify-struct, the `bench_file!` row prints three measured columns and no
blank at all — the stringify-struct column is omitted entirely (lines
106–118 have no `#[cfg(not(...))]` fallback), not printed blank. -/
theorem c4_counterexample :
    cellsOf exC4Row = [Cell.value 1 1, Cell.value 1 2, Cell.value 1 1] ∧
    Event.cell Cell.blank ∉ exC4Row ∧ (cellsOf exC4Row).length ≠ 4 := by
  refine ⟨?_, ?_, ?_⟩ <;> decide

/-- Claim C4 as amended: a parse-DOM, stringify-DOM or parse-struct column
whose feature is not compiled in is printed blank in `bench_file!` and
`bench_file_msgpack!` rows, and a parse-DOM or stringify-DOM column is
printed blank in `bench_file_simd_json!` rows; but a stringify-struct column
whose feature is off is omitted entirely rather than printed blank, as is
simd-json's parse-struct column, and simd-json rows never have a
stringify-struct column. -/
theorem c4_blank_or_omitted_columns :
    (∀ {Dom : Type u} {Struc : Type v} (codec : JsonCodec Dom Struc)
        (contents : Bytes) (clock : Nat → Nat) (n : Nat),
      parseDomBranch false codec contents clock n = .ok [.cell .blank] ∧
      stringifyDomBranch false codec contents clock n = .ok [.cell .blank] ∧
      parseStructBranch false codec contents clock n = .ok [.cell .blank] ∧
      stringifyStructBranch false codec contents clock n = .ok []) ∧
    (∀ {Dom : Type u} {Struc : Type v} (codec : JsonCodec Dom Struc)
        (path : String) (contents : Bytes) (costs : Costs) (n : Nat),
      benchFileCore n ⟨false, false, false, false⟩ codec path contents
          costs =
        [.path path, .cell .blank, .cell .blank, .cell .blank, .newline]) ∧
    (∀ {V S : Type u} (parseDom : Bytes → Except String (V × Bytes))
        (parseStruct : Bytes → Except String (S × Bytes))
        (write : V → Bytes) (path : String) (contents : Bytes)
        (costs : SimdCosts) (n : Nat) (ss : Bool),
      benchFileSimdJsonCore n ⟨false, false, false, ss⟩ parseDom parseStruct
          write path contents costs =
        [.path path, .cell .blank, .cell .blank, .newline]) ∧
    (∀ {V S : Type u} (jsonParseStruct : Bytes → Except String S)
        (rmpEncode : S → Except String Bytes)
        (readValue : Bytes → Except String V) (writeValue : V → Bytes)
        (rmpFromSlice : Bytes → Except String S)
        (rmpSerWrite : S → Except String Bytes) (path : String)
        (fixture : Bytes) (costs : Costs) (n : Nat) (s0 : S) (mb : Bytes),
      jsonParseStruct fixture = .ok s0 → rmpEncode s0 = .ok mb →
      benchFileMsgpackCore n ⟨false, false, false, false⟩ jsonParseStruct
          rmpEncode readValue writeValue rmpFromSlice rmpSerWrite path
          fixture costs =
        [.path path, .cell .blank, .cell .blank, .cell .blank, .newline]) := by
  refine ⟨?_, ?_, ?_, ?_⟩
  · intro Dom Struc codec contents clock n
    exact ⟨rfl, rfl, rfl, rfl⟩
  · intro Dom Struc codec path contents costs n
    rfl
  · intro V S parseDom parseStruct write path contents costs n ss
    rfl
  · intro V S jsonParseStruct rmpEncode readValue writeValue rmpFromSlice
      rmpSerWrite path fixture costs n s0 mb h1 h2
    simp [benchFileMsgpackCore, h1, h2, seqBranches]

/-- Witness for C4's amended claim, discharging its msgpack hypotheses at a
concrete instance. -/
theorem c4_blank_or_omitted_columns_witness :
    benchFileMsgpackCore 1 ⟨false, false, false, false⟩
        (fun _ => Except.ok (0 : Nat)) (fun _ => Except.ok [1])
        (fun _ => Except.ok (0 : Nat)) (fun _ => ([] : Bytes))
        (fun _ => Except.ok (0 : Nat)) (fun _ => Except.ok [])
        "data/canada.json" [49] exCosts =
      [.path "data/canada.json", .cell .blank, .cell .blank, .cell .blank,
       .newline] :=
  c4_blank_or_omitted_columns.{0, 0}.2.2.2 (fun _ => Except.ok (0 : Nat))
    (fun _ => Except.ok [1]) (fun _ => Except.ok (0 : Nat))
    (fun _ => ([] : Bytes)) (fun _ => Except.ok (0 : Nat))
    (fun _ => Except.ok []) "data/canada.json" [49] exCosts 1 0 [1] rfl rfl

/-- Claim C5: a benchmark invocation executes the operation exactly `n`
times, once per trial; each completed trial's result value is held paired
with its stop-timer reading; and the reported duration is the minimum over
all `n` trials — in the closure-based `timer::bench` path and in the manual
`Benchmark` start/stop/min_elapsed loop alike. -/
theorem c5_exact_trials_min_duration {α : Type u} {V : Type u}
    (n : Nat) (hn : 1 ≤ n) (op : Nat → Except String α) (f : Nat → α)
    (hop : ∀ j, op j = Except.ok (f j)) (clock : Nat → Nat) (line : Nat)
    (parse : Bytes → Except String (V × Bytes)) (c : Bytes) (v : V)
    (m : Bytes) (hp : parse c = .ok (v, m)) (rc pc : Nat → Nat) :
    (runTrials op clock 0 n).1 =
      (List.range n).map (fun j => (f j, clock j)) ∧
    (runTrials op clock 0 n).1.length = n ∧
    bench n op clock = .ok (minElapsed clock n) ∧
    ∃ s, simdRun line parse c n rc pc = .ok s ∧ s.inputs.length = n ∧
      s.bench.min_elapsed = minElapsed pc n := by
  refine ⟨?_, ?_, bench_ok n clock hop, ?_⟩
  · rw [runTrials_ok clock hop n 0, List.range_eq_range']
  · rw [runTrials_ok clock hop n 0]; simp
  · refine ⟨_, simdRun_ok line parse c v m hp n rc pc, by simp, ?_⟩
    have hne : (List.range' 0 n).map pc ≠ [] := by simp; omega
    simp [min_elapsed_foldl _ hne, minElapsed, List.range_eq_range']

/-- Witness for C5: two trials of a closure and of the manual loop. -/
theorem c5_witness :
    (runTrials (fun j => Except.ok j) (fun i => i + 3) 0 2).1 =
      (List.range 2).map (fun j => (j, j + 3)) ∧
    (runTrials (fun j => Except.ok j) (fun i => i + 3) 0 2).1.length = 2 ∧
    bench 2 (fun j => Except.ok j) (fun i => i + 3) =
      .ok (minElapsed (fun i => i + 3) 2) ∧
    ∃ s, simdRun 153 exParse [49] 2 (fun _ => 5) (fun _ => 1) = .ok s ∧
      s.inputs.length = 2 ∧
      s.bench.min_elapsed = minElapsed (fun _ => 1) 2 :=
  c5_exact_trials_min_duration 2 (by decide) (fun j => Except.ok j)
    (fun j => j) (fun _ => rfl) (fun i => i + 3) 153 exParse [49] 0 [] rfl
    (fun _ => 5) (fun _ => 1)

/-- Claim C6: every benchmark macro takes its trial count from the
environment-level override when present, falling back to the fixed default
of 256, and the same rule applies uniformly in `bench_file!` (line 55),
`bench_file_simd_json!` (line 134) and `bench_file_msgpack!` (line 205). -/
theorem c6_trial_count_env_default :
    (∀ k : Nat, (num_trials (some k)).getD 256 = k) ∧
    ((num_trials none).getD 256 = 256) ∧
    (∀ {Dom : Type u} {Struc : Type v} (env : Option Nat) (fts : Features)
        (codec : JsonCodec Dom Struc) (path : String) (contents : Bytes)
        (costs : Costs),
      benchFile env fts codec path contents costs =
        benchFileCore ((num_trials env).getD 256) fts codec path contents
          costs) ∧
    (∀ {V S : Type u} (env : Option Nat) (fts : Features)
        (parseDom : Bytes → Except String (V × Bytes))
        (parseStruct : Bytes → Except String (S × Bytes))
        (write : V → Bytes) (path : String) (contents : Bytes)
        (costs : SimdCosts),
      benchFileSimdJson env fts parseDom parseStruct write path contents
          costs =
        benchFileSimdJsonCore ((num_trials env).getD 256) fts parseDom
          parseStruct write path contents costs) ∧
    (∀ {V S : Type u} (env : Option Nat) (fts : Features)
        (jsonParseStruct : Bytes → Except String S)
        (rmpEncode : S → Except String Bytes)
        (readValue : Bytes → Except String V) (writeValue : V → Bytes)
        (rmpFromSlice : Bytes → Except String S)
        (rmpSerWrite : S → Except String Bytes) (path : String)
        (fixture : Bytes) (costs : Costs),
      benchFileMsgpack env fts jsonParseStruct rmpEncode readValue
          writeValue rmpFromSlice rmpSerWrite path fixture costs =
        benchFileMsgpackCore ((num_trials env).getD 256) fts jsonParseStruct
          rmpEncode readValue writeValue rmpFromSlice rmpSerWrite path
          fixture costs) := by
  refine ⟨fun k => rfl, rfl, ?_, ?_, ?_⟩ <;> intros <;> rfl

/-- Claim C7: `throughput` of a zero duration returns the defined sentinel
for every positive byte count; it never divides by zero, being a total
function. -/
theorem c7_throughput_zero_sentinel (n : Nat) (h : 0 < n) :
    throughput 0 n = Rate.sentinel := by
  simp [throughput]

/-- Witness for C7 at byte count 1. -/
theorem c7_witness : 0 < 1 ∧ throughput 0 1 = Rate.sentinel :=
  ⟨by decide, c7_throughput_zero_sentinel 1 (by decide)⟩

/-- Claim C8: with the same per-trial costs, the duration reported by
`bench` — and by `bench_with_buf` — for `n` trials is at most the one
reported for `m ≤ n` trials: the minimum over `N` trials is monotonically
non-increasing as `N` grows. -/
theorem c8_min_monotone_trials {α : Type u} (f : Nat → α) (g : Nat → Bytes)
    (clock : Nat → Nat) (sizeHint m n : Nat) (h1 : 1 ≤ m) (h2 : m ≤ n) :
    ∃ dm dn rm rn,
      bench m (fun j => Except.ok (f j)) clock = .ok dm ∧
      bench n (fun j => Except.ok (f j)) clock = .ok dn ∧ dn ≤ dm ∧
      bench_with_buf m sizeHint (fun j => Except.ok (g j)) clock = .ok rm ∧
      bench_with_buf n sizeHint (fun j => Except.ok (g j)) clock = .ok rn ∧
      rn.1 ≤ rm.1 :=
  ⟨minElapsed clock m, minElapsed clock n, _, _,
    bench_ok m clock (fun _ => rfl), bench_ok n clock (fun _ => rfl),
    minElapsed_mono clock m n h1 h2,
    bench_with_buf_ok' m sizeHint clock (fun _ => rfl),
    bench_with_buf_ok' n sizeHint clock (fun _ => rfl),
    minElapsed_mono clock m n h1 h2⟩

/-- Witness for C8 with one and two trials. -/
theorem c8_witness :
    ∃ dm dn rm rn,
      bench 1 (fun j => Except.ok j) (fun i => i) = .ok dm ∧
      bench 2 (fun j => Except.ok j) (fun i => i) = .ok dn ∧ dn ≤ dm ∧
      bench_with_buf 1 0 (fun j => Except.ok [j]) (fun i => i) = .ok rm ∧
      bench_with_buf 2 0 (fun j => Except.ok [j]) (fun i => i) = .ok rn ∧
      rn.1 ≤ rm.1 :=
  c8_min_monotone_trials (fun j => j) (fun j => [j]) (fun i => i) 0 1 2
    (by decide) (by decide)

/-- Claim C9: on input bytes that are not valid UTF-8, the serde_json and
rustc_serialize parse adapters panic on the `str::from_utf8(...).unwrap()`
(lines 319, 332 and 355) instead of returning through their declared Result
channel; on valid UTF-8 they always answer through the Result channel. -/
theorem c9_invalid_utf8_panics {Dom T U : Type u}
    (from_str_dom : Bytes → Except String Dom)
    (from_str_struct : Bytes → Except String T)
    (decode : Bytes → Except String U) (bytes : Bytes)
    (h : validUtf8 bytes = false) :
    serde_json_parse_dom from_str_dom bytes = .error ⟨319, "Utf8Error"⟩ ∧
    serde_json_parse_struct from_str_struct bytes =
      .error ⟨332, "Utf8Error"⟩ ∧
    rustc_serialize_parse_struct decode bytes = .error ⟨355, "Utf8Error"⟩ ∧
    (∀ bs : Bytes, validUtf8 bs = true →
      serde_json_parse_dom from_str_dom bs = .ok (from_str_dom bs) ∧
      serde_json_parse_struct from_str_struct bs =
        .ok (from_str_struct bs) ∧
      rustc_serialize_parse_struct decode bs = .ok (decode bs)) := by
  refine ⟨?_, ?_, ?_, ?_⟩
  · simp [serde_json_parse_dom, h]
  · simp [serde_json_parse_struct, h]
  · simp [rustc_serialize_parse_struct, h]
  · intro bs hbs
    exact ⟨by simp [serde_json_parse_dom, hbs],
      by simp [serde_json_parse_struct, hbs],
      by simp [rustc_serialize_parse_struct, hbs]⟩

/-- Witness for C9 at the invalid byte `0xFF`. -/
theorem c9_witness :
    validUtf8 [255] = false ∧
    serde_json_parse_dom (fun _ => Except.ok (0 : Nat)) [255] =
      .error ⟨319, "Utf8Error"⟩ ∧
    serde_json_parse_struct (fun _ => Except.ok (0 : Nat)) [255] =
      .error ⟨332, "Utf8Error"⟩ ∧
    rustc_serialize_parse_struct (fun _ => Except.ok (0 : Nat)) [255] =
      .error ⟨355, "Utf8Error"⟩ :=
  ⟨by decide,
    (c9_invalid_utf8_panics (fun _ => Except.ok (0 : Nat))
      (fun _ => Except.ok (0 : Nat)) (fun _ => Except.ok (0 : Nat)) [255]
      (by decide)).1,
    (c9_invalid_utf8_panics (fun _ => Except.ok (0 : Nat))
      (fun _ => Except.ok (0 : Nat)) (fun _ => Except.ok (0 : Nat)) [255]
      (by decide)).2.1,
    (c9_invalid_utf8_panics (fun _ => Except.ok (0 : Nat))
      (fun _ => Except.ok (0 : Nat)) (fun _ => Except.ok (0 : Nat)) [255]
      (by decide)).2.2.1⟩

/-- Claim C10: in a `bench_file_msgpack!` row, the benchmarked payload is
not the on-disk fixture: it is the MessagePack re-encoding of the
serde_json-parsed struct (lines 210–213), and both parse columns pass that
encoding's length to `throughput` as the byte-count denominator — so rmp
rates are computed against a different denominator than the JSON libraries'
for the same fixture whenever the two lengths differ. -/
theorem c10_msgpack_denominator {V S : Type u}
    (n : Nat) (hn : 1 ≤ n)
    (jsonParseStruct : Bytes → Except String S)
    (rmpEncode : S → Except String Bytes)
    (readValue : Bytes → Except String V) (writeValue : V → Bytes)
    (rmpFromSlice : Bytes → Except String S)
    (rmpSerWrite : S → Except String Bytes)
    (path : String) (fixture : Bytes) (costs : Costs)
    (s0 : S) (mb : Bytes) (dom : V) (st : S) (outS : Bytes)
    (h1 : jsonParseStruct fixture = .ok s0)
    (h2 : rmpEncode s0 = .ok mb)
    (h3 : readValue mb = .ok dom)
    (h4 : rmpFromSlice mb = .ok st)
    (h5 : rmpSerWrite st = .ok outS) :
    benchFileMsgpackCore n ⟨true, true, true, true⟩ jsonParseStruct
        rmpEncode readValue writeValue rmpFromSlice rmpSerWrite path fixture
        costs =
      [.path path,
       .cell (.value (minElapsed costs.pd n) mb.length),
       .cell (.value (minElapsed costs.sd n) (writeValue dom).length),
       .cell (.value (minElapsed costs.ps n) mb.length),
       .cell (.value (minElapsed costs.ss n) outS.length),
       .newline] := by
  have hminel :
      (((List.range' 0 n).map costs.pd).foldl Benchmark.addTrial
        Benchmark.new).min_elapsed = minElapsed costs.pd n := by
    have hne : (List.range' 0 n).map costs.pd ≠ [] := by simp; omega
    simp [min_elapsed_foldl _ hne, minElapsed, List.range_eq_range']
  have hwb1 : bench_with_buf n mb.length
      (fun _ => Except.ok (writeValue dom)) costs.sd =
      .ok (minElapsed costs.sd n, writeValue dom) :=
    @bench_with_buf_ok (fun _ => Except.ok (writeValue dom)) (writeValue dom)
      n hn mb.length costs.sd (fun _ => rfl)
  have hb : bench n (fun _ => Except.ok st) costs.ps =
      .ok (minElapsed costs.ps n) := bench_ok n costs.ps (fun _ => rfl)
  have hwb2 : bench_with_buf n mb.length (fun _ => Except.ok outS)
      costs.ss = .ok (minElapsed costs.ss n, outS) :=
    @bench_with_buf_ok (fun _ => Except.ok outS) outS n hn mb.length
      costs.ss (fun _ => rfl)
  simp [benchFileMsgpackCore, h1, h2, h3, h4, h5, manualLoop_ok, hminel,
    hwb1, hb, hwb2, seqBranches]

/-- Witness for C10: a one-byte JSON fixture whose MessagePack re-encoding
has three bytes; the parse denominators are 3, not 1. -/
theorem c10_witness :
    benchFileMsgpackCore 1 ⟨true, true, true, true⟩
        (fun _ => Except.ok (0 : Nat)) (fun _ => Except.ok [1, 2, 3])
        (fun _ => Except.ok (0 : Nat)) (fun _ => [7, 8])
        (fun _ => Except.ok (0 : Nat)) (fun _ => Except.ok [9])
        "data/canada.json" [49] exCosts =
      [.path "data/canada.json", .cell (.value 1 3), .cell (.value 1 2),
       .cell (.value 1 3), .cell (.value 1 1), .newline] ∧
    ([1, 2, 3] : Bytes).length ≠ ([49] : Bytes).length :=
  ⟨c10_msgpack_denominator 1 (by decide) (fun _ => Except.ok (0 : Nat))
      (fun _ => Except.ok [1, 2, 3]) (fun _ => Except.ok (0 : Nat))
      (fun _ => [7, 8]) (fun _ => Except.ok (0 : Nat))
      (fun _ => Except.ok [9]) "data/canada.json" [49] exCosts 0 [1, 2, 3]
      0 0 [9] rfl rfl rfl rfl rfl,
    by decide⟩

end JsonBench
